import Mathlib

/-!
Verification of the VineMatch Wine Enthusiast scraper
(src/VineMatch/providers/scrapers/we_playwright.py).

The module is single-threaded glue around a browser-automation engine and a
tabular-file library.  We embed its pure logic shallowly:

  - Python strings are Lean strings; Python operations that Lean lacks
    (strip, startswith, str.replace with count 1, truthiness) are modelled at
    the character-list level so every definition evaluates.
  - Browser I/O is abstracted by oracles: a detail fetch is a function from a
    URL to an Except value, a listing-page visit is a function from a URL to
    an optional anchor list (none modelling a selector timeout), and the
    contents of one rendered review page are a PageView value.
  - Wall-clock polling in the challenge handler is modelled by a bounded
    number of poll iterations, and each random draw by an explicit parameter.
  - A pandas DataFrame row is an association list from column names to
    optional cell values (none modelling NaN); a DataFrame is its column list
    plus its rows.
-/

namespace VineMatch

/-- Models Python str.strip: drop leading and trailing whitespace.  Python
strips a slightly larger Unicode whitespace set; all strings handled by the
scraper are covered by Char.isWhitespace. -/
def pyStrip (s : String) : String :=
  ⟨((s.data.dropWhile Char.isWhitespace).reverse.dropWhile Char.isWhitespace).reverse⟩

/-- Models Python str.startswith, at the character-list level. -/
def pyStartsWith (t p : String) : Bool :=
  p.data.isPrefixOf t.data

/-- Models the Python pattern (x or ""): a missing text_content becomes "". -/
def textOrEmpty (o : Option String) : String :=
  o.getD ""

/-- Models the Python pattern ((x or "").strip() or None), used throughout
fetch_detail: strip the text, and turn an empty result into None. -/
def stripOrNone (o : Option String) : Option String :=
  let t := pyStrip (textOrEmpty o)
  if t = "" then none else some t

/-- Models Python str applied to a CSV cell that is either a string or NaN
(pandas stores an empty or missing cell as the float NaN, and str of NaN is
the three-letter string nan). -/
def pyStr (o : Option String) : String :=
  match o with
  | none => "nan"
  | some s => s

/-! ## URL Builder (_build_search_url, lines 72-90) -/

/-- The base host, module constant _BASE. -/
def _BASE : String := "https://www.wineenthusiast.com/"

/-- The query-parameter list assembled by _build_search_url: the four fixed
parameters, then wine_style if the style argument is truthy (Python
truthiness: not None and not the empty string), then pub_date if the year
argument is truthy (not None and not 0), encoded with the percent-escaped
colon prefix. -/
def searchParams (page : Int) (style : Option String) (year : Option Int) :
    List String :=
  let ps := ["?s=", "search_type=ratings", "page=" ++ toString page,
             "drink_type=wine"]
  let ps := ps ++ (match style with
    | some s => if s = "" then [] else ["wine_style=" ++ s]
    | none => [])
  ps ++ (match year with
    | some y => if y = 0 then [] else ["pub_date=%253A" ++ toString y]
    | none => [])

/-- Models _build_search_url: the base host followed by the parameters
joined with ampersands. -/
def _build_search_url (page : Int) (style : Option String)
    (year : Option Int) : String :=
  _BASE ++ String.intercalate "&" (searchParams page style year)

/-! ## Challenge Handler (_handle_challenge, lines 123-144)

The handler reads the wall clock and sleeps; we model one run by
  - challenged: what _looks_like_challenge returns on entry,
  - maxPolls: how many poll iterations fit before the deadline
    (challenge_timeout_s divided by the poll pause),
  - check: what _looks_like_challenge returns at each subsequent poll,
  - draw: the value randint draws from cooldown_range_s.
The result is some draw when the cooldown sleep at the end executes with
that duration, and none when the function returns without the cooldown
sleep.  The function is total: no exception is ever raised. -/

/-- True when some poll among the next fuel polls, starting at index start,
reports the challenge as cleared (the Python while loop returning early). -/
def clearsWithin (check : Nat → Bool) : Nat → Nat → Bool
  | _, 0 => false
  | start, fuel + 1 =>
    if check start = false then true else clearsWithin check (start + 1) fuel

/-- Models _handle_challenge.  Returns the cooldown duration slept, or none
when no cooldown sleep happened. -/
def _handle_challenge (challenged manual : Bool) (maxPolls : Nat)
    (check : Nat → Bool) (draw : Nat) : Option Nat :=
  if challenged = false then none
  else if manual = true ∧ clearsWithin check 0 maxPolls = true then none
  else some draw

/-! ## Link Collector (collect_links, lines 211-272) -/

/-- One output row of the links table. -/
structure LinkRecord where
  name : String
  url : String
deriving DecidableEq, Repr

/-- One anchor element on a listing page: its text_content (None possible)
and its href attribute (None possible). -/
structure Anchor where
  text : Option String
  href : Option String
deriving DecidableEq, Repr

/-- The rows appended for the anchors of one listing page: name is the
stripped text, and the pair is kept only when both name and href are truthy
(non-empty strings). -/
def anchorRows (anchors : List Anchor) : List LinkRecord :=
  anchors.filterMap fun a =>
    let name := pyStrip (textOrEmpty a.text)
    match a.href with
    | some h => if name ≠ "" ∧ h ≠ "" then some ⟨name, h⟩ else none
    | none => none

/-- Models (list(styles) if styles else [None]): an absent or empty iterable
collapses to the single no-style sentinel. -/
def stylesIter (styles : Option (List String)) : List (Option String) :=
  match styles with
  | some l => if l = [] then [none] else l.map some
  | none => [none]

/-- Models (list(years) if years else [None]). -/
def yearsIter (years : Option (List Int)) : List (Option Int) :=
  match years with
  | some l => if l = [] then [none] else l.map some
  | none => [none]

/-- The search URLs visited by the triple loop, in iteration order:
styles x years x pages 1..max_pages. -/
def visitedUrls (maxPages : Nat) (styles : Option (List String))
    (years : Option (List Int)) : List String :=
  (stylesIter styles).flatMap fun sty =>
    (yearsIter years).flatMap fun yr =>
      (List.range' 1 maxPages).map fun pg =>
        _build_search_url (pg : Int) sty yr

/-- The page loop of collect_links over a list of page URLs.  fetchPage
models one navigation plus the bounded wait for the listing anchor
selector: none is a selector timeout (the except branch does continue,
appending nothing), some gives the anchors found. -/
def collectPages (fetchPage : String → Option (List Anchor)) :
    List String → List LinkRecord → List LinkRecord
  | [], rows => rows
  | u :: rest, rows =>
    match fetchPage u with
    | none => collectPages fetchPage rest rows
    | some anchors => collectPages fetchPage rest (rows ++ anchorRows anchors)

/-- Models pandas drop_duplicates on the URL column with the default
keep-first policy: a row is kept when its url has not been seen before. -/
def dedupByUrl (seen : List String) : List LinkRecord → List LinkRecord
  | [] => []
  | r :: rest =>
    if r.url ∈ seen then dedupByUrl seen rest
    else r :: dedupByUrl (r.url :: seen) rest

/-- Models collect_links: gather rows over all visited pages, then
deduplicate by URL (dropping duplicates of an empty frame is the identity,
so the Python empty-frame guard needs no separate case). -/
def collect_links (fetchPage : String → Option (List Anchor))
    (maxPages : Nat) (styles : Option (List String))
    (years : Option (List Int)) : List LinkRecord :=
  dedupByUrl [] (collectPages fetchPage (visitedUrls maxPages styles years) [])

/-! ## Detail Extractor (fetch_detail, lines 274-359) -/

/-- The rendered contents of one review page, as fetch_detail reads them:
whether the bounded wait for the title selector succeeds, and the raw
text_content results of each fixed selector. -/
structure PageView where
  titlePresent : Bool
  titleText : Option String
  regionTexts : List (Option String)
  regionValueText : Option String
  scoreText : Option String
  priceText : Option String
  wineryText : Option String
  varietyText : Option String
  wineTypeText : Option String
deriving Repr

/-- The record assembled by fetch_detail (the details dict minus its keys). -/
structure DetailRecord where
  wineName : Option String
  region1 : Option String
  region2 : Option String
  region3 : Option String
  country : Option String
  score : Option String
  price : Option String
  winery : Option String
  variety : Option String
  wineType : Option String
  url : String
deriving DecidableEq, Repr

/-- Removes the leftmost occurrence of old from a character list, models
Python str.replace(old, "", 1).  An empty old matches at position 0 and
removes nothing, as in Python. -/
def removeFirstSub (old : List Char) : List Char → List Char
  | [] => []
  | c :: rest =>
    if old.isPrefixOf (c :: rest) then (c :: rest).drop old.length
    else c :: removeFirstSub old rest

/-- Models the inner helper _strip_label of fetch_detail: None or an empty
text gives None; a text starting with the label has the leftmost occurrence
of the label removed (which, under the startswith guard, is the leading
one) and is stripped; otherwise the text is merely stripped. -/
def _strip_label (text : Option String) (label : String) : Option String :=
  match text with
  | none => none
  | some t =>
    if t = "" then none
    else if pyStartsWith t label then some (pyStrip ⟨removeFirstSub label.data t.data⟩)
    else some (pyStrip t)

/-- The cleaned region list: each anchor text is defaulted to "", stripped,
and empty entries are dropped. -/
def regionListOf (texts : List (Option String)) : List String :=
  (texts.map fun o => pyStrip (textOrEmpty o)).filter fun x => x ≠ ""

/-- Models (region_list[-1] if region_list else None). -/
def countryOf (l : List String) : Option String :=
  if l = [] then none else l[l.length - 1]?

/-- Models (region_value if region_value and region_value in region_list
else None).  The scrutinee is an Optional string, and Python truthiness on
it means: not None and not empty. -/
def region1Of (l : List String) (rv : Option String) : Option String :=
  match rv with
  | some v => if v ≠ "" ∧ v ∈ l then some v else none
  | none => none

/-- Models (region_list[-2] if len(region_list) > 1 and
region_list[-2] != region_value else None); the inequality compares a
string with an Optional string, so it holds whenever region_value is None. -/
def region2Of (l : List String) (rv : Option String) : Option String :=
  if 1 < l.length ∧ l[l.length - 2]? ≠ rv then l[l.length - 2]? else none

/-- Models (region_list[-3] if len(region_list) > 2 and
region_list[-3] != region_value else None). -/
def region3Of (l : List String) (rv : Option String) : Option String :=
  if 2 < l.length ∧ l[l.length - 3]? ≠ rv then l[l.length - 3]? else none

/-- Models fetch_detail on one review page.  Navigation and challenge
handling do not affect the returned record; the bounded wait for the title
selector is not caught, so its timeout surfaces as the error case.  All
later locator reads default to None text and cannot raise. -/
def fetch_detail (pv : PageView) (url : String) : Except String DetailRecord :=
  if pv.titlePresent = false then Except.error "TimeoutError: .review-title"
  else
    let region_list := regionListOf pv.regionTexts
    let region_value := stripOrNone pv.regionValueText
    Except.ok
      { wineName := stripOrNone pv.titleText
        region1 := region1Of region_list region_value
        region2 := region2Of region_list region_value
        region3 := region3Of region_list region_value
        country := countryOf region_list
        score := _strip_label (stripOrNone pv.scoreText) "RATING"
        price := _strip_label (stripOrNone pv.priceText) "PRICE"
        winery := stripOrNone pv.wineryText
        variety := stripOrNone pv.varietyText
        wineType := stripOrNone pv.wineTypeText
        url := url }

/-! ## Batch Runner (scrape_details_from_csv, lines 361-397) -/

/-- One CSV row: column name to cell, none modelling NaN. -/
abbrev CsvRow := List (String × Option String)

/-- One output row, as the Python dict appended to rows: keys in insertion
order, values optional strings (None for absent fields). -/
abbrev OutRow := List (String × Option String)

/-- The details dict of a successful fetch, with its exact keys in
insertion order. -/
def detailToRow (d : DetailRecord) : OutRow :=
  [("Wine Name", d.wineName), ("Region 1", d.region1), ("Region 2", d.region2),
   ("Region 3", d.region3), ("Country", d.country), ("Score", d.score),
   ("Price", d.price), ("Winery", d.winery), ("Variety", d.variety),
   ("Wine Type", d.wineType), ("URL", some d.url)]

/-- The two-field dict appended when a fetch raises. -/
def errorRow (url msg : String) : OutRow :=
  [("URL", some url), ("error", some msg)]

/-- Models (str(r["URL"]) if "URL" in df_links.columns else
str(r.get("url", ""))).  A Series.get on a missing key returns the default
empty string; a present NaN cell prints as nan. -/
def rowUrl (cols : List String) (r : CsvRow) : String :=
  if "URL" ∈ cols then pyStr ((r.lookup "URL").getD none)
  else
    match r.lookup "url" with
    | some v => pyStr v
    | none => ""

/-- The per-row try/except body: a successful fetch appends its record
unchanged, a raised exception is converted to the two-field error row. -/
def processRow (fetch : String → Except String DetailRecord) (url : String) :
    OutRow :=
  match fetch url with
  | Except.ok rec => detailToRow rec
  | Except.error e => errorRow url e

/-- The row loop of scrape_details_from_csv.  i is the DataFrame index of
the current row; acc is the accumulated rows list.  Returns the final rows
list together with the checkpoint snapshots written to out_csv, in order.
A row whose URL resolves to the empty string is skipped by continue, which
also skips the checkpoint test; checkpoint_every is taken positive, since
Python raises ZeroDivisionError on the modulus when it is 0 and out_csv is
set. -/
def batchLoop (fetch : String → Except String DetailRecord)
    (cols : List String) (outCsv : Bool) (k : Nat) :
    List CsvRow → Nat → List OutRow → List OutRow × List (List OutRow)
  | [], _, acc => (acc, [])
  | r :: rest, i, acc =>
    let url := rowUrl cols r
    if url = "" then batchLoop fetch cols outCsv k rest (i + 1) acc
    else
      let acc2 := acc ++ [processRow fetch url]
      let res := batchLoop fetch cols outCsv k rest (i + 1) acc2
      if outCsv = true ∧ (i + 1) % k = 0 then (res.1, acc2 :: res.2)
      else res

/-- Models scrape_details_from_csv: run the row loop from index 0 with an
empty accumulator, then, when an output path is configured, write the full
result once more at the end.  The first component is the returned result
set; the second lists every file write, in order. -/
def scrape_details_from_csv (fetch : String → Except String DetailRecord)
    (cols : List String) (rows : List CsvRow) (outCsv : Bool) (k : Nat) :
    List OutRow × List (List OutRow) :=
  let r := batchLoop fetch cols outCsv k rows 0 []
  (r.1, if outCsv = true then r.2 ++ [r.1] else r.2)

/-! ## Concrete instances used to evaluate the development -/

/-- A challenge check that reports the challenge as cleared at every poll. -/
def checkCleared : Nat → Bool := fun _ => false

/-- A challenge check that reports the challenge as still up at every poll. -/
def checkStillUp : Nat → Bool := fun _ => true

/-- A detail fetch whose every call raises. -/
def fetchBoom : String → Except String DetailRecord :=
  fun _ => Except.error "boom"

/-- A rendered review page carrying the region data of the specification
example: region list Napa, California, USA with primary-region value Napa. -/
def napaPage : PageView :=
  { titlePresent := true, titleText := some "Some Wine"
    regionTexts := [some "Napa", some "California", some "USA"]
    regionValueText := some "Napa", scoreText := some "RATING 92"
    priceText := some "PRICE $30", wineryText := some "W"
    varietyText := some "V", wineTypeText := some "T" }

/-- A rendered review page whose primary-region value does not occur in its
two-element region list. -/
def strayValuePage : PageView :=
  { titlePresent := true, titleText := some "Some Wine"
    regionTexts := [some "A", some "B"], regionValueText := some "C"
    scoreText := none, priceText := none, wineryText := none
    varietyText := none, wineTypeText := none }

/-- A rendered review page on which the title selector never appears. -/
def timeoutPage : PageView :=
  { titlePresent := false, titleText := none, regionTexts := []
    regionValueText := none, scoreText := none, priceText := none
    wineryText := none, varietyText := none, wineTypeText := none }

/-- A listing oracle returning, on every page, two anchors that share one
URL under different names. -/
def dupAnchors : String → Option (List Anchor) :=
  fun _ => some [⟨some "A", some "u"⟩, ⟨some "B", some "u"⟩]

/-- A listing oracle on which the anchor selector always times out. -/
def noAnchors : String → Option (List Anchor) := fun _ => none

/-- A links-CSV row holding one URL. -/
def urlRow : CsvRow := [("URL", some "u")]

/-! ## Helper lemmas -/

theorem mk_data (s : String) : (⟨s.data⟩ : String) = s := rfl

theorem append_empty_str (s : String) : s ++ "" = s := by
  cases s with
  | mk d => simp [String.ext_iff, String.data_append]

theorem pyStartsWith_append (a b : String) : pyStartsWith (a ++ b) a = true := by
  simp [pyStartsWith, String.data_append, List.isPrefixOf_iff_prefix]

theorem pyStartsWith_iff_exists (t p : String) :
    pyStartsWith t p = true ↔ ∃ r, t = p ++ r := by
  constructor
  · intro h
    simp [pyStartsWith, List.isPrefixOf_iff_prefix] at h
    obtain ⟨rest, hrest⟩ := h
    refine ⟨⟨rest⟩, ?_⟩
    cases t with
    | mk d => simp [String.ext_iff, String.data_append]; simpa using hrest.symm
  · rintro ⟨r, rfl⟩
    exact pyStartsWith_append p r

theorem removeFirstSub_append (old rest : List Char) :
    removeFirstSub old (old ++ rest) = rest := by
  cases h : old ++ rest with
  | nil =>
    rcases List.append_eq_nil.mp h with ⟨h1, h2⟩
    subst h1; subst h2; rfl
  | cons c t =>
    rw [removeFirstSub]
    have hpre : old.isPrefixOf (c :: t) = true := by
      rw [← h]
      exact List.isPrefixOf_iff_prefix.mpr (List.prefix_append old rest)
    rw [if_pos hpre, ← h, List.drop_left]

theorem append_ne_append (p q x y : String)
    (h : p.data.isPrefixOf q.data = false)
    (h2 : q.data.isPrefixOf p.data = false) : p ++ x ≠ q ++ y := by
  intro he
  have hd := congrArg String.data he
  rw [String.data_append, String.data_append] at hd
  rcases List.append_eq_append_iff.mp hd with ⟨as, ha, _⟩ | ⟨cs, hc, _⟩
  · have hp : p.data.isPrefixOf q.data = true :=
      List.isPrefixOf_iff_prefix.mpr ⟨as, ha.symm⟩
    rw [hp] at h
    exact absurd h (by simp)
  · have hp : q.data.isPrefixOf p.data = true :=
      List.isPrefixOf_iff_prefix.mpr ⟨cs, hc.symm⟩
    rw [hp] at h2
    exact absurd h2 (by simp)

theorem clearsWithin_eq_false_iff (check : Nat → Bool) :
    ∀ (fuel start : Nat),
      clearsWithin check start fuel = false ↔
        ∀ i, i < fuel → check (start + i) = true
  | 0, start => by simp [clearsWithin]
  | fuel + 1, start => by
    rw [clearsWithin]
    by_cases h : check start = false
    · simp only [if_pos h]
      constructor
      · intro hfalse; exact absurd hfalse (by simp)
      · intro hall
        have := hall 0 (Nat.succ_pos fuel)
        rw [Nat.add_zero] at this
        rw [this] at h
        exact absurd h (by simp)
    · simp only [if_neg h]
      rw [clearsWithin_eq_false_iff check fuel (start + 1)]
      constructor
      · intro hall i hi
        match i, hi with
        | 0, _ => simpa using Bool.of_not_eq_false h
        | j + 1, hj =>
          have := hall j (Nat.lt_of_succ_lt_succ hj)
          simpa [Nat.add_comm, Nat.add_assoc, Nat.add_left_comm] using this
      · intro hall i hi
        have := hall (i + 1) (Nat.succ_lt_succ hi)
        simpa [Nat.add_comm, Nat.add_assoc, Nat.add_left_comm] using this

/-! ## Claim C9 -/

/-- C9: for every raw score or price text, _strip_label removes a literal
leading label when the text starts with it and returns the remainder
trimmed of surrounding whitespace; returns the text merely trimmed when no
such prefix is present; returns absent for missing or empty text; and
RATING 92 becomes 92. -/
theorem C9_strip_label (label t r : String) :
    _strip_label none label = none ∧
    _strip_label (some "") label = none ∧
    (label ++ r ≠ "" →
      _strip_label (some (label ++ r)) label = some (pyStrip r)) ∧
    (t ≠ "" → (∀ r2, t ≠ label ++ r2) →
      _strip_label (some t) label = some (pyStrip t)) ∧
    _strip_label (some "RATING 92") "RATING" = some "92" := by
  refine ⟨rfl, by simp [_strip_label], ?_, ?_, by decide⟩
  · intro h
    simp only [_strip_label, if_neg h, pyStartsWith_append, if_pos]
    rw [String.data_append, removeFirstSub_append, mk_data]
  · intro h hnp
    have hsw : pyStartsWith t label = false := by
      cases hps : pyStartsWith t label with
      | false => rfl
      | true =>
        obtain ⟨r2, hr2⟩ := (pyStartsWith_iff_exists t label).mp hps
        exact absurd hr2 (hnp r2)
    simp [_strip_label, if_neg h, hsw]

/-- C9 witness: the theorem applied with label RATING to the text
RATING followed by a space and 92 (prefix present), and to the prefix-free
text 92pts. -/
theorem C9_strip_label_witness :
    _strip_label (some ("RATING" ++ " 92")) "RATING" = some (pyStrip " 92") ∧
    _strip_label (some "92pts") "RATING" = some (pyStrip "92pts") :=
  ⟨(C9_strip_label "RATING" "x" " 92").2.2.1 (by decide),
   (C9_strip_label "RATING" "92pts" "").2.2.2.1 (by decide)
     (fun r2 h => by
       have hd := congrArg String.data h
       simp [String.data_append] at hd)⟩

/-! ## Claim C5 -/

/-- C5 counterexample: on a challenged page with manual intervention
enabled whose challenge clears at the first poll, _handle_challenge
returns without sleeping the cooldown, so the cooldown is not slept
regardless of whether the challenge cleared during polling. -/
theorem C5_counterexample :
    _handle_challenge true true 1 checkCleared 15 = none := by decide

/-- C5 (amended): the Challenge Handler is a no-op on a non-challenged
page, and on a challenged page it sleeps the drawn cooldown exactly when
manual intervention is disabled or the challenge stayed up at every poll
until the timeout; when the challenge clears during polling it returns
early without the cooldown sleep.  The model is a total function, so no
input raises an exception. -/
theorem C5_cooldown_amended (challenged manual : Bool) (maxPolls : Nat)
    (check : Nat → Bool) (draw : Nat) :
    (challenged = false →
      _handle_challenge challenged manual maxPolls check draw = none) ∧
    (_handle_challenge challenged manual maxPolls check draw = some draw ↔
      challenged = true ∧
        (manual = false ∨ ∀ i, i < maxPolls → check i = true)) := by
  constructor
  · intro h
    simp [_handle_challenge, h]
  · cases challenged with
    | false => simp [_handle_challenge]
    | true =>
      cases manual with
      | false => simp [_handle_challenge]
      | true =>
        cases hcw : clearsWithin check 0 maxPolls with
        | false =>
          have hall := (clearsWithin_eq_false_iff check maxPolls 0).mp hcw
          simp only [Nat.zero_add] at hall
          simp [_handle_challenge, hcw]
          exact hall
        | true =>
          have hnall : ¬ ∀ i, i < maxPolls → check i = true := by
            intro hall
            have : clearsWithin check 0 maxPolls = false :=
              (clearsWithin_eq_false_iff check maxPolls 0).mpr
                (fun i hi => by simpa using hall i hi)
            rw [this] at hcw
            exact absurd hcw (by simp)
          simp [_handle_challenge, hcw, hnall]

/-- C5 witness: the amended theorem applied on a non-challenged page, and
on a challenged page whose challenge never clears within two polls. -/
theorem C5_cooldown_amended_witness :
    _handle_challenge false true 3 checkStillUp 7 = none ∧
    _handle_challenge true true 2 checkStillUp 7 = some 7 :=
  ⟨(C5_cooldown_amended false true 3 checkStillUp 7).1 rfl,
   (C5_cooldown_amended true true 2 checkStillUp 7).2.mpr
     ⟨rfl, Or.inr (fun _ _ => rfl)⟩⟩

/-! ## Claim C1 -/

theorem countryOf_eq_getLast? (l : List String) : countryOf l = l.getLast? := by
  cases l with
  | nil => rfl
  | cons a t =>
    rw [countryOf, if_neg (by simp), List.getLast?_eq_getElem?]

theorem getElem?_reverse_one {α} (l : List α) (h : 1 < l.length) :
    l.reverse[1]? = l[l.length - 2]? := by
  rw [List.getElem?_reverse (by omega)]
  congr 1

theorem getElem?_reverse_two {α} (l : List α) (h : 2 < l.length) :
    l.reverse[2]? = l[l.length - 3]? := by
  rw [List.getElem?_reverse (by omega)]
  congr 1

theorem length_of_reverse_getElem?_some {α} (l : List α) (i : ℕ) (a : α)
    (h : l.reverse[i]? = some a) : i < l.length := by
  obtain ⟨h2, _⟩ := List.getElem?_eq_some.mp h
  simpa using h2

/-- C1: for every fetched review page, the region derivation of the Detail
Extractor sets country to the last element of the region list when that
list is non-empty (absent otherwise); region_1 to the primary-region value
exactly when that value is non-empty and occurs in the region list; region_2
to the second-to-last element exactly when the list has at least two
elements and that element differs from the primary-region value; region_3
to the third-to-last element exactly when the list has at least three
elements and that element differs from the primary-region value.  On the
page with region list Napa, California, USA and primary-region value Napa
the result is country USA, region_1 Napa, region_2 California, region_3
absent. -/
theorem C1_region_derivation :
    (∀ (pv : PageView) (url : String), pv.titlePresent = true →
      ∃ d, fetch_detail pv url = Except.ok d ∧
        ∀ l rv, l = regionListOf pv.regionTexts →
          rv = stripOrNone pv.regionValueText →
          d.country = l.getLast? ∧
          ((rv = none → d.region1 = none) ∧
            ∀ v, rv = some v →
              (v ≠ "" ∧ v ∈ l → d.region1 = some v) ∧
              (¬ (v ≠ "" ∧ v ∈ l) → d.region1 = none)) ∧
          ((l.length < 2 → d.region2 = none) ∧
            ∀ e, l.reverse[1]? = some e →
              (some e ≠ rv → d.region2 = some e) ∧
              (some e = rv → d.region2 = none)) ∧
          ((l.length < 3 → d.region3 = none) ∧
            ∀ e, l.reverse[2]? = some e →
              (some e ≠ rv → d.region3 = some e) ∧
              (some e = rv → d.region3 = none))) ∧
    fetch_detail napaPage "u" = Except.ok
      { wineName := some "Some Wine", region1 := some "Napa",
        region2 := some "California", region3 := none,
        country := some "USA", score := some "92", price := some "$30",
        winery := some "W", variety := some "V", wineType := some "T",
        url := "u" } := by
  constructor
  · intro pv url h
    simp only [fetch_detail, h]
    refine ⟨_, rfl, ?_⟩
    intro l rv hl hrv
    subst hl
    subst hrv
    dsimp only
    refine ⟨countryOf_eq_getLast? _, ⟨?_, ?_⟩, ⟨?_, ?_⟩, ⟨?_, ?_⟩⟩
    · intro hnone
      rw [hnone]
      simp only [region1Of]
    · intro v hv
      rw [hv]
      simp only [region1Of]
      constructor
      · intro hcond
        rw [if_pos hcond]
      · intro hcond
        rw [if_neg hcond]
    · intro hlt
      rw [region2Of, if_neg]
      rintro ⟨h1, -⟩
      omega
    · intro e he
      have h2 : 1 < (regionListOf pv.regionTexts).length :=
        length_of_reverse_getElem?_some _ 1 e he
      rw [getElem?_reverse_one _ h2] at he
      constructor
      · intro hne
        rw [region2Of, if_pos ⟨h2, by rw [he]; exact hne⟩, he]
      · intro heq
        rw [region2Of, if_neg]
        rintro ⟨-, hcontra⟩
        rw [he] at hcontra
        exact hcontra heq
    · intro hlt
      rw [region3Of, if_neg]
      rintro ⟨h1, -⟩
      omega
    · intro e he
      have h2 : 2 < (regionListOf pv.regionTexts).length :=
        length_of_reverse_getElem?_some _ 2 e he
      rw [getElem?_reverse_two _ h2] at he
      constructor
      · intro hne
        rw [region3Of, if_pos ⟨h2, by rw [he]; exact hne⟩, he]
      · intro heq
        rw [region3Of, if_neg]
        rintro ⟨-, hcontra⟩
        rw [he] at hcontra
        exact hcontra heq
  · rfl

/-- C1 witness: the universal part applied to the Napa page, giving the
country conjunct there. -/
theorem C1_region_derivation_witness :
    ∃ d, fetch_detail napaPage "u" = Except.ok d ∧
      d.country = (regionListOf napaPage.regionTexts).getLast? := by
  obtain ⟨d, hd, hp⟩ := C1_region_derivation.1 napaPage "u" rfl
  exact ⟨d, hd, (hp _ _ rfl rfl).1⟩

/-! ## Claim C10 -/

/-- C10: a non-empty primary-region value that does not occur in the region
list, with a region list of at least two elements, yields a record whose
region_1 is absent while region_2 is present, so the Detail Extractor does
not guarantee that region_2 is absent whenever region_1 is. -/
theorem C10_region2_without_region1 (pv : PageView) (url v : String)
    (ht : pv.titlePresent = true)
    (hv : stripOrNone pv.regionValueText = some v)
    (hnot : v ∉ regionListOf pv.regionTexts)
    (hlen : 2 ≤ (regionListOf pv.regionTexts).length) :
    ∃ d, fetch_detail pv url = Except.ok d ∧
      d.region1 = none ∧ d.region2.isSome = true := by
  simp only [fetch_detail, ht]
  refine ⟨_, rfl, ?_, ?_⟩
  · dsimp only
    rw [hv]
    simp only [region1Of]
    rw [if_neg]
    rintro ⟨-, hmem⟩
    exact hnot hmem
  · dsimp only
    have h2 : 1 < (regionListOf pv.regionTexts).length := by omega
    have hget : (regionListOf pv.regionTexts)[(regionListOf pv.regionTexts).length - 2]?
        = some ((regionListOf pv.regionTexts).get
            ⟨(regionListOf pv.regionTexts).length - 2, by omega⟩) := by
      rw [List.getElem?_eq_getElem (by omega)]
      simp
    have hmem := List.getElem?_mem hget
    have hne : (regionListOf pv.regionTexts)[(regionListOf pv.regionTexts).length - 2]?
        ≠ stripOrNone pv.regionValueText := by
      rw [hget, hv]
      intro hcontra
      have heq : (regionListOf pv.regionTexts).get
          ⟨(regionListOf pv.regionTexts).length - 2, by omega⟩ = v := by
        simpa using hcontra
      rw [heq] at hmem
      exact hnot hmem
    rw [region2Of, if_pos ⟨h2, hne⟩]
    simp [hget]

/-! ## Claim C8 -/

/-- C8: a selector timeout is handled asymmetrically.  In fetch_detail the
bounded wait for the title selector is not caught, so its timeout surfaces
as an error to the caller; in collect_links a timeout waiting for the
listing anchor selector skips the current page with no record appended and
the loop continues over the remaining pages unchanged. -/
theorem C8_timeout_asymmetry :
    (∀ (pv : PageView) (url : String), pv.titlePresent = false →
      fetch_detail pv url = Except.error "TimeoutError: .review-title") ∧
    (∀ (f : String → Option (List Anchor)) (u : String)
      (pre post : List String) (acc : List LinkRecord), f u = none →
      collectPages f (pre ++ u :: post) acc = collectPages f (pre ++ post) acc) := by
  constructor
  · intro pv url h
    rw [fetch_detail, if_pos h]
  · intro f u pre post acc hu
    induction pre generalizing acc with
    | nil =>
      simp only [List.nil_append, collectPages, hu]
    | cons p rest ih =>
      cases hfp : f p with
      | none =>
        simp only [List.cons_append, collectPages, hfp]
        exact ih acc
      | some anchors =>
        simp only [List.cons_append, collectPages, hfp]
        exact ih (acc ++ anchorRows anchors)

/-- C8 witness: the theorem applied to the always-timing-out page view and
to a three-page run whose middle page times out. -/
theorem C8_timeout_asymmetry_witness :
    fetch_detail timeoutPage "u" = Except.error "TimeoutError: .review-title" ∧
    collectPages noAnchors (["a"] ++ "b" :: ["c"]) []
      = collectPages noAnchors (["a"] ++ ["c"]) [] :=
  ⟨C8_timeout_asymmetry.1 timeoutPage "u" rfl,
   C8_timeout_asymmetry.2 noAnchors "b" ["a"] ["c"] [] rfl⟩

/-! ## Claim C6 -/

theorem dedup_not_mem_seen (l : List LinkRecord) :
    ∀ (seen : List String) (r : LinkRecord),
      r ∈ dedupByUrl seen l → r.url ∉ seen := by
  induction l with
  | nil =>
    intro seen r hr
    cases hr
  | cons a t ih =>
    intro seen r hr
    rw [dedupByUrl] at hr
    by_cases hmem : a.url ∈ seen
    · rw [if_pos hmem] at hr
      exact ih seen r hr
    · rw [if_neg hmem] at hr
      rcases List.mem_cons.mp hr with rfl | hrt
      · exact hmem
      · intro hcontra
        exact ih (a.url :: seen) r hrt (List.mem_cons_of_mem _ hcontra)

theorem dedup_pairwise (l : List LinkRecord) :
    ∀ seen : List String,
      (dedupByUrl seen l).Pairwise (fun a b => a.url ≠ b.url) := by
  induction l with
  | nil =>
    intro seen
    simp [dedupByUrl]
  | cons a t ih =>
    intro seen
    rw [dedupByUrl]
    by_cases hmem : a.url ∈ seen
    · rw [if_pos hmem]
      exact ih seen
    · rw [if_neg hmem]
      refine List.Pairwise.cons ?_ (ih (a.url :: seen))
      intro b hb
      have := dedup_not_mem_seen t (a.url :: seen) b hb
      intro hcontra
      exact this (by rw [← hcontra]; exact List.mem_cons_self _ _)

theorem dedup_find? (u : String) (l : List LinkRecord) :
    ∀ seen : List String, u ∉ seen →
      (dedupByUrl seen l).find? (fun r => r.url == u)
        = l.find? (fun r => r.url == u) := by
  induction l with
  | nil =>
    intro seen _
    rfl
  | cons a t ih =>
    intro seen hu
    rw [dedupByUrl]
    by_cases hmem : a.url ∈ seen
    · rw [if_pos hmem]
      have hne : (a.url == u) = false := by
        simp only [beq_eq_false_iff_ne, ne_eq]
        intro hcontra
        rw [hcontra] at hmem
        exact hu hmem
      rw [List.find?_cons, hne]
      exact ih seen hu
    · rw [if_neg hmem]
      cases hau : (a.url == u) with
      | true =>
        rw [List.find?_cons, hau, List.find?_cons, hau]
      | false =>
        rw [List.find?_cons, hau, List.find?_cons, hau]
        refine ih (a.url :: seen) ?_
        intro hcontra
        rcases List.mem_cons.mp hcontra with heq | hmem2
        · rw [beq_eq_false_iff_ne] at hau
          exact hau heq.symm
        · exact hu hmem2

theorem dedup_covers (l : List LinkRecord) :
    ∀ (seen : List String) (s : LinkRecord), s ∈ l → s.url ∉ seen →
      ∃ r, r ∈ dedupByUrl seen l ∧ r.url = s.url := by
  induction l with
  | nil =>
    intro seen s hs _
    cases hs
  | cons a t ih =>
    intro seen s hs hnot
    rw [dedupByUrl]
    by_cases hmem : a.url ∈ seen
    · rw [if_pos hmem]
      rcases List.mem_cons.mp hs with rfl | hst
      · exact absurd hmem hnot
      · exact ih seen s hst hnot
    · rw [if_neg hmem]
      rcases List.mem_cons.mp hs with rfl | hst
      · exact ⟨s, List.mem_cons_self _ _, rfl⟩
      · by_cases hsa : s.url = a.url
        · exact ⟨a, List.mem_cons_self _ _, hsa.symm⟩
        · obtain ⟨r, hr, hru⟩ := ih (a.url :: seen) s hst (by
            intro hcontra
            rcases List.mem_cons.mp hcontra with heq | hm2
            · exact hsa heq
            · exact hnot hm2)
          exact ⟨r, List.mem_cons_of_mem _ hr, hru⟩

theorem find?_of_pairwise (l : List LinkRecord)
    (hp : l.Pairwise (fun a b => a.url ≠ b.url)) (r : LinkRecord)
    (hr : r ∈ l) : l.find? (fun s => s.url == r.url) = some r := by
  induction l with
  | nil => cases hr
  | cons a t ih =>
    rcases List.mem_cons.mp hr with rfl | hrt
    · rw [List.find?_cons]
      simp
    · have hne : (a.url == r.url) = false := by
        rw [beq_eq_false_iff_ne]
        exact (List.pairwise_cons.mp hp).1 r hrt
      rw [List.find?_cons, hne]
      exact ih (List.pairwise_cons.mp hp).2 hrt

/-- C6: the Link Collector output contains no two records with the same
URL; every returned record is the first record gathered with its URL (so
the Wine Name paired with a duplicated URL is the first-seen name); and
every gathered URL is still represented after deduplication. -/
theorem C6_dedup_keeps_first (f : String → Option (List Anchor)) (mp : Nat)
    (st : Option (List String)) (yr : Option (List Int)) :
    (collect_links f mp st yr).Pairwise (fun a b => a.url ≠ b.url) ∧
    (∀ r, r ∈ collect_links f mp st yr →
      (collectPages f (visitedUrls mp st yr) []).find?
        (fun s => s.url == r.url) = some r) ∧
    (∀ s, s ∈ collectPages f (visitedUrls mp st yr) [] →
      ∃ r, r ∈ collect_links f mp st yr ∧ r.url = s.url) := by
  refine ⟨dedup_pairwise _ [], ?_, ?_⟩
  · intro r hr
    rw [← dedup_find? r.url (collectPages f (visitedUrls mp st yr) []) []
      (by simp)]
    exact find?_of_pairwise _ (dedup_pairwise _ []) r hr
  · intro s hs
    exact dedup_covers _ [] s hs (by simp)

/-- C6 witness: the theorem applied to a one-page run whose page carries
two anchors sharing the URL u under names A and B: the kept record is the
first-seen pair. -/
theorem C6_dedup_keeps_first_witness :
    (collectPages dupAnchors (visitedUrls 1 none none) []).find?
      (fun s => s.url == (LinkRecord.mk "A" "u").url)
      = some (LinkRecord.mk "A" "u") :=
  (C6_dedup_keeps_first dupAnchors 1 none none).2.1
    (LinkRecord.mk "A" "u") (by decide)

/-- C10 witness: the theorem applied to the page with region list A, B and
primary-region value C. -/
theorem C10_region2_without_region1_witness :
    ∃ d, fetch_detail strayValuePage "u" = Except.ok d ∧
      d.region1 = none ∧ d.region2.isSome = true :=
  C10_region2_without_region1 strayValuePage "u" "C" rfl (by decide)
    (by decide) (by decide)

/-! ## Batch Runner lemmas -/

/-- The per-row output function applied through one batch step. -/
def rowOut (fetch : String → Except String DetailRecord)
    (cols : List String) (r : CsvRow) : Option OutRow :=
  if rowUrl cols r = "" then none
  else some (processRow fetch (rowUrl cols r))

theorem batchLoop_fst (fetch : String → Except String DetailRecord)
    (cols : List String) (o : Bool) (k : Nat) :
    ∀ (rows : List CsvRow) (i : Nat) (acc : List OutRow),
      (batchLoop fetch cols o k rows i acc).1
        = acc ++ rows.filterMap (rowOut fetch cols) := by
  intro rows
  induction rows with
  | nil =>
    intro i acc
    simp [batchLoop]
  | cons r rest ih =>
    intro i acc
    simp only [batchLoop]
    by_cases hu : rowUrl cols r = ""
    · rw [if_pos hu, ih, List.filterMap_cons]
      simp [rowOut, hu]
    · rw [if_neg hu, apply_ite Prod.fst, ih, List.filterMap_cons]
      simp [rowOut, hu, List.append_assoc]

theorem batchLoop_snd (fetch : String → Except String DetailRecord)
    (cols : List String) (k : Nat) :
    ∀ (rows : List CsvRow) (i : Nat) (acc : List OutRow),
      (∀ r ∈ rows, rowUrl cols r ≠ "") →
      (batchLoop fetch cols true k rows i acc).2
        = (List.range rows.length).filterMap (fun j =>
            if (i + j + 1) % k = 0 then
              some (acc ++ (rows.take (j + 1)).map
                (fun r => processRow fetch (rowUrl cols r)))
            else none) := by
  intro rows
  induction rows with
  | nil =>
    intro i acc _
    simp [batchLoop]
  | cons r rest ih =>
    intro i acc hall
    have hu : rowUrl cols r ≠ "" := hall r (List.mem_cons_self _ _)
    have hall2 : ∀ s ∈ rest, rowUrl cols s ≠ "" :=
      fun s hs => hall s (List.mem_cons_of_mem _ hs)
    simp only [batchLoop]
    rw [if_neg hu, apply_ite Prod.snd,
      ih (i + 1) (acc ++ [processRow fetch (rowUrl cols r)]) hall2,
      List.length_cons, List.range_succ_eq_map, List.filterMap_cons,
      List.filterMap_map]
    have htail : (List.range rest.length).filterMap
        ((fun j => if (i + j + 1) % k = 0 then
            some (acc ++ ((r :: rest).take (j + 1)).map
              (fun s => processRow fetch (rowUrl cols s)))
          else none) ∘ Nat.succ)
        = (List.range rest.length).filterMap (fun j =>
            if (i + 1 + j + 1) % k = 0 then
              some ((acc ++ [processRow fetch (rowUrl cols r)])
                ++ (rest.take (j + 1)).map
                  (fun s => processRow fetch (rowUrl cols s)))
            else none) := by
      apply List.filterMap_congr
      intro j hj
      simp only [Function.comp, Nat.succ_eq_add_one]
      have harith : i + (j + 1) + 1 = i + 1 + j + 1 := by omega
      rw [harith]
      by_cases hcj : (i + 1 + j + 1) % k = 0
      · rw [if_pos hcj, if_pos hcj]
        simp [List.take_succ_cons, List.append_assoc]
      · rw [if_neg hcj, if_neg hcj]
    rw [htail]
    by_cases hc : (i + 1) % k = 0
    · rw [if_pos (show True ∧ (i + 1) % k = 0 from ⟨trivial, hc⟩)]
      simp [hc, List.take_succ_cons]
    · rw [if_neg (show ¬ (True ∧ (i + 1) % k = 0) from
        fun hcc => hc hcc.2)]
      simp [hc]

theorem filterMap_range_mod {α} (k : Nat) (F : Nat → α) :
    ∀ n, (List.range n).filterMap (fun j =>
        if (j + 1) % k = 0 then some (F (j + 1)) else none)
      = (List.range (n / k)).map (fun m => F ((m + 1) * k)) := by
  intro n
  induction n with
  | zero => simp
  | succ n ih =>
    rw [List.range_succ, List.filterMap_append, ih]
    by_cases hd : k ∣ (n + 1)
    · have hmod : (n + 1) % k = 0 := by
        obtain ⟨c, hcm⟩ := hd
        rw [hcm]
        exact Nat.mul_mod_right k c
      rw [Nat.succ_div_of_dvd hd, List.range_succ, List.map_append]
      congr 1
      have hmul : (n / k + 1) * k = n + 1 := by
        have h2 : (n + 1) / k = n / k + 1 := Nat.succ_div_of_dvd hd
        rw [← h2]
        exact Nat.div_mul_cancel hd
      simp [hmod, hmul]
    · have hmod : (n + 1) % k ≠ 0 :=
        fun hc => hd (Nat.dvd_of_mod_eq_zero hc)
      rw [Nat.succ_div_of_not_dvd hd]
      simp [hmod]

theorem scrape_fst (fetch : String → Except String DetailRecord)
    (cols : List String) (rows : List CsvRow) (o : Bool) (k : Nat) :
    (scrape_details_from_csv fetch cols rows o k).1
      = rows.filterMap (rowOut fetch cols) := by
  simpa [scrape_details_from_csv] using batchLoop_fst fetch cols o k rows 0 []

theorem filterMap_rowOut_eq_map (fetch : String → Except String DetailRecord)
    (cols : List String) (rows : List CsvRow)
    (hall : ∀ r ∈ rows, rowUrl cols r ≠ "") :
    rows.filterMap (rowOut fetch cols)
      = rows.map (fun r => processRow fetch (rowUrl cols r)) := by
  rw [show rows.map (fun r => processRow fetch (rowUrl cols r))
      = rows.filterMap (some ∘ fun r => processRow fetch (rowUrl cols r)) from
    (List.filterMap_eq_map _ ▸ rfl)]
  apply List.filterMap_congr
  intro r hr
  simp [rowOut, hall r hr]

theorem filterMap_rowOut_eq_urls (fetch : String → Except String DetailRecord)
    (cols : List String) (rows : List CsvRow) :
    rows.filterMap (rowOut fetch cols)
      = ((rows.map (rowUrl cols)).filter (fun u => u ≠ "")).map
          (processRow fetch) := by
  induction rows with
  | nil => rfl
  | cons r rest ih =>
    by_cases hu : rowUrl cols r = ""
    · simp [rowOut, List.filterMap_cons, hu, ih]
    · simp [rowOut, List.filterMap_cons, hu, ih]

theorem scrape_writes (fetch : String → Except String DetailRecord)
    (cols : List String) (rows : List CsvRow) (k : Nat)
    (hall : ∀ r ∈ rows, rowUrl cols r ≠ "") :
    (scrape_details_from_csv fetch cols rows true k).2
      = (List.range (rows.length / k)).map (fun m =>
          (rows.take ((m + 1) * k)).map
            (fun r => processRow fetch (rowUrl cols r)))
        ++ [rows.map (fun r => processRow fetch (rowUrl cols r))] := by
  simp only [scrape_details_from_csv, if_pos]
  rw [batchLoop_snd fetch cols k rows 0 [] hall]
  congr 1
  · calc (List.range rows.length).filterMap (fun j =>
        if (0 + j + 1) % k = 0 then
          some ([] ++ (rows.take (j + 1)).map
            (fun r => processRow fetch (rowUrl cols r)))
        else none)
        = (List.range rows.length).filterMap (fun j =>
            if (j + 1) % k = 0 then
              some ((fun m => (rows.take m).map
                (fun r => processRow fetch (rowUrl cols r))) (j + 1))
            else none) := by
          apply List.filterMap_congr
          intro j hj
          simp
      _ = (List.range (rows.length / k)).map (fun m =>
            (rows.take ((m + 1) * k)).map
              (fun r => processRow fetch (rowUrl cols r))) :=
        filterMap_range_mod k (fun m => (rows.take m).map
          (fun r => processRow fetch (rowUrl cols r))) rows.length
  · rw [batchLoop_fst]
    simp [filterMap_rowOut_eq_map fetch cols rows hall]

/-! ## Claim C2 -/

/-- C2 counterexample: a one-row links CSV whose only column is link (no
URL column in either capitalization) yields an empty result set, not one
output row per input row. -/
theorem C2_counterexample :
    (scrape_details_from_csv fetchBoom ["link"] [[("link", some "x")]]
      false 100).1 = [] ∧
    ([[("link", some "x")]] : List CsvRow).length = 1 :=
  ⟨by decide, rfl⟩

/-- C2 (amended): the Batch Runner returns one output row per input row
whose URL resolves to a non-empty string, in the order of those rows
(error rows included); a row whose URL resolves to the empty string is
skipped.  In particular, when every row has a non-empty URL the result has
exactly one output row per input row, in input order. -/
theorem C2_one_row_per_url (fetch : String → Except String DetailRecord)
    (cols : List String) (rows : List CsvRow) (o : Bool) (k : Nat)
    (hk : 0 < k) :
    (scrape_details_from_csv fetch cols rows o k).1
      = rows.filterMap (rowOut fetch cols) ∧
    ((∀ r ∈ rows, rowUrl cols r ≠ "") →
      (scrape_details_from_csv fetch cols rows o k).1
        = rows.map (fun r => processRow fetch (rowUrl cols r))) := by
  refine ⟨scrape_fst fetch cols rows o k, ?_⟩
  intro hall
  rw [scrape_fst, filterMap_rowOut_eq_map fetch cols rows hall]

/-- C2 witness: the amended theorem applied to a one-row CSV with a URL
column. -/
theorem C2_one_row_per_url_witness :
    (scrape_details_from_csv fetchBoom ["URL"] [urlRow] false 100).1
      = [urlRow].filterMap (rowOut fetchBoom ["URL"]) :=
  (C2_one_row_per_url fetchBoom ["URL"] [urlRow] false 100 (by decide)).1

/-! ## Claim C3 -/

/-- C3: for every input row whose URL resolves to a non-empty string, a
raised per-row fetch exception is caught: the batch result still has one
row for every such input row (the batch does not abort), the failing row
produces exactly the two-field record of its URL and the error message,
and a successful fetch has its record appended unchanged. -/
theorem C3_error_containment (fetch : String → Except String DetailRecord)
    (cols : List String) (rows : List CsvRow) (o : Bool) (k : Nat)
    (hk : 0 < k) (j : Nat) (u : String)
    (hu : ((rows.map (rowUrl cols)).filter (fun s => s ≠ ""))[j]? = some u) :
    (scrape_details_from_csv fetch cols rows o k).1.length
        = ((rows.map (rowUrl cols)).filter (fun s => s ≠ "")).length ∧
    (∀ e, fetch u = Except.error e →
      (scrape_details_from_csv fetch cols rows o k).1[j]?
        = some [("URL", some u), ("error", some e)]) ∧
    (∀ d, fetch u = Except.ok d →
      (scrape_details_from_csv fetch cols rows o k).1[j]?
        = some (detailToRow d)) := by
  have hres : (scrape_details_from_csv fetch cols rows o k).1
      = ((rows.map (rowUrl cols)).filter (fun s => s ≠ "")).map
          (processRow fetch) := by
    rw [scrape_fst, filterMap_rowOut_eq_urls]
  refine ⟨by rw [hres, List.length_map], ?_, ?_⟩
  · intro e he
    rw [hres, List.getElem?_map, hu]
    simp [processRow, he, errorRow]
  · intro d hd
    rw [hres, List.getElem?_map, hu]
    simp [processRow, hd]

/-- C3 witness: a one-row batch whose fetch raises, giving the two-field
error record at position 0. -/
theorem C3_error_containment_witness :
    (scrape_details_from_csv fetchBoom ["URL"] [urlRow] false 100).1[0]?
      = some [("URL", some "u"), ("error", some "boom")] :=
  (C3_error_containment fetchBoom ["URL"] [urlRow] false 100 (by decide) 0 "u"
    (by decide)).2.1 "boom" rfl

/-! ## Claim C4 -/

/-- C4: with an output path configured the Batch Runner writes the
accumulated result set after every checkpoint_every fully processed rows,
and writes the full accumulated result set once more after the last row
regardless of whether a checkpoint fired on it; for a 250-row input with
checkpoint_every 100 the writes happen after row 100, after row 200 and
once at completion, and the final write holds exactly 250 rows in original
input order. -/
theorem C4_checkpoint_writes :
    (∀ (fetch : String → Except String DetailRecord) (cols : List String)
      (rows : List CsvRow) (k : Nat), 0 < k →
      (∀ r ∈ rows, rowUrl cols r ≠ "") →
      (scrape_details_from_csv fetch cols rows true k).2
        = (List.range (rows.length / k)).map (fun m =>
            (rows.take ((m + 1) * k)).map
              (fun r => processRow fetch (rowUrl cols r)))
          ++ [rows.map (fun r => processRow fetch (rowUrl cols r))]) ∧
    (∀ (fetch : String → Except String DetailRecord) (cols : List String)
      (rows : List CsvRow), (∀ r ∈ rows, rowUrl cols r ≠ "") →
      rows.length = 250 →
      (scrape_details_from_csv fetch cols rows true 100).2
        = [(rows.take 100).map (fun r => processRow fetch (rowUrl cols r)),
           (rows.take 200).map (fun r => processRow fetch (rowUrl cols r)),
           rows.map (fun r => processRow fetch (rowUrl cols r))] ∧
      (scrape_details_from_csv fetch cols rows true 100).1
        = rows.map (fun r => processRow fetch (rowUrl cols r)) ∧
      (scrape_details_from_csv fetch cols rows true 100).1.length = 250) := by
  constructor
  · intro fetch cols rows k _ hall
    exact scrape_writes fetch cols rows k hall
  · intro fetch cols rows hall hlen
    have hfst : (scrape_details_from_csv fetch cols rows true 100).1
        = rows.map (fun r => processRow fetch (rowUrl cols r)) := by
      rw [scrape_fst, filterMap_rowOut_eq_map fetch cols rows hall]
    refine ⟨?_, hfst, by rw [hfst, List.length_map, hlen]⟩
    rw [scrape_writes fetch cols rows 100 hall, hlen]
    norm_num
    simp [List.range_succ]

/-- C4 witness: the 250-row instance applied to 250 identical one-URL
rows. -/
theorem C4_checkpoint_writes_witness :
    (scrape_details_from_csv fetchBoom ["URL"] (List.replicate 250 urlRow)
        true 100).2
      = [((List.replicate 250 urlRow).take 100).map
            (fun r => processRow fetchBoom (rowUrl ["URL"] r)),
         ((List.replicate 250 urlRow).take 200).map
            (fun r => processRow fetchBoom (rowUrl ["URL"] r)),
         (List.replicate 250 urlRow).map
            (fun r => processRow fetchBoom (rowUrl ["URL"] r))] ∧
      (scrape_details_from_csv fetchBoom ["URL"] (List.replicate 250 urlRow)
          true 100).1
        = (List.replicate 250 urlRow).map
            (fun r => processRow fetchBoom (rowUrl ["URL"] r)) ∧
      (scrape_details_from_csv fetchBoom ["URL"] (List.replicate 250 urlRow)
          true 100).1.length = 250 :=
  C4_checkpoint_writes.2 fetchBoom ["URL"] (List.replicate 250 urlRow)
    (fun r hr => by rw [(List.mem_replicate.mp hr).2]; decide)
    (List.length_replicate 250 urlRow)

/-! ## Claim C7 -/

theorem append_ne_lit (p x q : String)
    (h : p.data.isPrefixOf q.data = false) : p ++ x ≠ q := by
  intro he
  have hd := congrArg String.data he
  rw [String.data_append] at hd
  have hp : p.data.isPrefixOf q.data = true :=
    List.isPrefixOf_iff_prefix.mpr ⟨x.data, hd⟩
  rw [hp] at h
  exact absurd h (by simp)

theorem mem_searchParams (page : Int) (style : Option String)
    (year : Option Int) (q : String) :
    q ∈ searchParams page style year ↔
      q = "?s=" ∨ q = "search_type=ratings" ∨ q = "page=" ++ toString page ∨
      q = "drink_type=wine" ∨
      (∃ s, style = some s ∧ s ≠ "" ∧ q = "wine_style=" ++ s) ∨
      (∃ y, year = some y ∧ y ≠ 0 ∧ q = "pub_date=%253A" ++ toString y) := by
  rcases style with _ | s
  · rcases year with _ | y
    · simp [searchParams]
    · by_cases hy : y = 0
      · simp [searchParams, hy]
      · simp [searchParams, hy]
  · rcases year with _ | y
    · by_cases hs : s = ""
      · simp [searchParams, hs]
      · simp [searchParams, hs]
    · by_cases hs : s = ""
      · by_cases hy : y = 0
        · simp [searchParams, hs, hy]
        · simp [searchParams, hs, hy]
      · by_cases hy : y = 0
        · simp [searchParams, hs, hy]
        · simp [searchParams, hs, hy]

/-- C7 counterexample: with year 0 provided, the parameter list is the four
fixed parameters only: no pub_date parameter appears, although a year was
provided (Python truthiness treats the integer 0 as absent). -/
theorem C7_counterexample :
    searchParams 1 none (some 0)
      = ["?s=", "search_type=ratings", "page=1", "drink_type=wine"] := by
  decide

/-- C7 (amended): the URL Builder is a pure function of its inputs; its
output starts with the base host; its parameter list contains page=N for
the given page number N; a wine_style parameter appears if and only if a
non-empty style was provided; and a pub_date parameter appears if and only
if a nonzero year was provided, encoded with the percent-escaped colon
prefix immediately before the year. -/
theorem C7_url_builder_amended (page : Int) (style : Option String)
    (year : Option Int) :
    pyStartsWith (_build_search_url page style year) _BASE = true ∧
    ("page=" ++ toString page) ∈ searchParams page style year ∧
    ((∃ t, ("wine_style=" ++ t) ∈ searchParams page style year) ↔
      (∃ s, style = some s ∧ s ≠ "")) ∧
    ((∃ t, ("pub_date=" ++ t) ∈ searchParams page style year) ↔
      (∃ y, year = some y ∧ y ≠ 0)) ∧
    (∀ y, year = some y → y ≠ 0 →
      ("pub_date=%253A" ++ toString y) ∈ searchParams page style year) := by
  refine ⟨?_, ?_, ⟨?_, ?_⟩, ⟨?_, ?_⟩, ?_⟩
  · rw [_build_search_url]
    exact pyStartsWith_append _ _
  · exact (mem_searchParams page style year _).mpr
      (Or.inr (Or.inr (Or.inl rfl)))
  · rintro ⟨t, ht⟩
    rcases (mem_searchParams page style year _).mp ht with
      h | h | h | h | ⟨s, hs, hne, -⟩ | ⟨y, -, -, h⟩
    · exact absurd h (append_ne_lit "wine_style=" t "?s=" (by decide))
    · exact absurd h
        (append_ne_lit "wine_style=" t "search_type=ratings" (by decide))
    · exact absurd h (append_ne_append "wine_style=" "page=" t (toString page)
        (by decide) (by decide))
    · exact absurd h
        (append_ne_lit "wine_style=" t "drink_type=wine" (by decide))
    · exact ⟨s, hs, hne⟩
    · exact absurd h (append_ne_append "wine_style=" "pub_date=%253A" t
        (toString y) (by decide) (by decide))
  · rintro ⟨s, hs, hne⟩
    exact ⟨s, (mem_searchParams page style year _).mpr
      (Or.inr (Or.inr (Or.inr (Or.inr (Or.inl ⟨s, hs, hne, rfl⟩)))))⟩
  · rintro ⟨t, ht⟩
    rcases (mem_searchParams page style year _).mp ht with
      h | h | h | h | ⟨s, -, -, h⟩ | ⟨y, hy, hyne, -⟩
    · exact absurd h (append_ne_lit "pub_date=" t "?s=" (by decide))
    · exact absurd h
        (append_ne_lit "pub_date=" t "search_type=ratings" (by decide))
    · exact absurd h (append_ne_append "pub_date=" "page=" t (toString page)
        (by decide) (by decide))
    · exact absurd h
        (append_ne_lit "pub_date=" t "drink_type=wine" (by decide))
    · exact absurd h (append_ne_append "pub_date=" "wine_style=" t s
        (by decide) (by decide))
    · exact ⟨y, hy, hyne⟩
  · rintro ⟨y, hy, hyne⟩
    refine ⟨"%253A" ++ toString y, ?_⟩
    rw [← String.append_assoc,
      show ("pub_date=" ++ "%253A" : String) = "pub_date=%253A" by decide]
    exact (mem_searchParams page style year _).mpr
      (Or.inr (Or.inr (Or.inr (Or.inr (Or.inr ⟨y, hy, hyne, rfl⟩)))))
  · intro y hy hyne
    exact (mem_searchParams page style year _).mpr
      (Or.inr (Or.inr (Or.inr (Or.inr (Or.inr ⟨y, hy, hyne, rfl⟩)))))

/-- C7 witness: the amended theorem applied at page 2, style Red, year
2020, giving the pub_date parameter membership. -/
theorem C7_url_builder_amended_witness :
    ("pub_date=%253A" ++ toString (2020 : Int))
      ∈ searchParams 2 (some "Red") (some 2020) :=
  (C7_url_builder_amended 2 (some "Red") (some 2020)).2.2.2.2 2020 rfl
    (by decide)

end VineMatch
